import Mathlib

/-!
Verification of the todo-gin repository's access-control and ownership layer.

The definitions below are a shallow embedding of the Go source:
  - `internal/services/todo_service.go` (TodoServiceImpl)
  - `internal/services/category_service.go` (CategoryServiceImpl, ShareCategory)
  - `internal/repository/todo_repo.go`, `internal/repository/category_share_repo.go`
  - the sqlc queries in `db/queries/auth.sql` and the share/permission queries
    (`GetUserPermissionForCategory`, `GetTodosGroupedByCategory`, ...)

The database is modelled as explicit lists of rows; sqlc `:one` lookups become
`List.find?` (first matching row, `none` standing for `sql.ErrNoRows`), inserts
append a row with a fresh auto-increment id, and `UPDATE ... WHERE` maps over
the row list. Go `int`/`int64` arithmetic is modelled on `Int`, with `Int.tdiv`
for Go's truncating division.
-/

namespace TodoGin

/-- A row of the `users` table. -/
structure User where
  id : Nat
  name : String
  email : String
  deriving DecidableEq

/-- A row of the `categories` table (`models.Category`). -/
structure Category where
  id : Nat
  name : String
  ownerID : Nat
  deriving DecidableEq

/-- A row of the `category_shares` table (`models.CategoryShare`).
The schema's `permission` column is `ENUM('read','write')`; it is modelled as a
`String` because the Go services compare it as a string. -/
structure CategoryShare where
  id : Nat
  categoryID : Nat
  sharedWithUserID : Nat
  permission : String
  createdAt : Nat
  deriving DecidableEq

/-- A row of the `todos` table (`models.Todo`). `deleted = true` models a
non-NULL `deleted_at`; `createdAt` is an abstract timestamp used only for the
`ORDER BY created_at DESC` of the list queries. -/
structure Todo where
  id : Nat
  title : String
  description : String
  categoryID : Nat
  completed : Bool
  userID : Nat
  createdBy : Nat
  deleted : Bool
  createdAt : Nat
  deriving DecidableEq

/-- The database state: the four tables plus auto-increment counters and a
clock used for `CURRENT_TIMESTAMP` on insert. -/
structure DB where
  users : List User
  categories : List Category
  shares : List CategoryShare
  todos : List Todo
  nextTodoID : Nat
  nextCategoryID : Nat
  nextShareID : Nat
  now : Nat
  deriving DecidableEq

/-- `GetCategoryByID` (`SELECT ... FROM categories WHERE id = ?`). -/
def getCategoryByID (db : DB) (id : Nat) : Option Category :=
  db.categories.find? (fun c => c.id == id)

/-- `GetUserByEmail` (`SELECT ... FROM users WHERE email = ?`). -/
def getUserByEmail (db : DB) (email : String) : Option User :=
  db.users.find? (fun u => u.email == email)

/-- `GetCategoryByNameAndOwner`
(`SELECT ... FROM categories WHERE owner_id = ? AND name = ?`). -/
def getCategoryByNameAndOwner (db : DB) (ownerID : Nat) (name : String) :
    Option Category :=
  db.categories.find? (fun c => c.ownerID == ownerID && c.name == name)

/-- `GetCategoryShareByCategoryAndUser`
(`SELECT ... FROM category_shares WHERE category_id = ? AND shared_with_user_id = ?`). -/
def getCategoryShareByCategoryAndUser (db : DB) (categoryID userID : Nat) :
    Option CategoryShare :=
  db.shares.find? (fun s => s.categoryID == categoryID && s.sharedWithUserID == userID)

/-- `GetTodoByID`
(`SELECT ... FROM todos WHERE id = ? AND deleted_at IS NULL`). -/
def getTodoByID (db : DB) (id : Nat) : Option Todo :=
  db.todos.find? (fun t => t.id == id && !t.deleted)

/-- The sqlc query `GetUserPermissionForCategory`:
`SELECT CASE WHEN c.owner_id = ? THEN 'owner' ELSE COALESCE(cs.permission,'none') END
 FROM categories c LEFT JOIN category_shares cs ON c.id = cs.category_id AND
 cs.shared_with_user_id = ? WHERE c.id = ?`.
`none` models `sql.ErrNoRows` (the category does not exist). -/
def getUserPermissionForCategory (db : DB) (userID categoryID : Nat) : Option String :=
  (getCategoryByID db categoryID).map (fun c =>
    if c.ownerID == userID then "owner"
    else
      match getCategoryShareByCategoryAndUser db categoryID userID with
      | some s => s.permission
      | none => "none")

/-- The sentinel errors of `todo_service.go` and `category_service.go`.
`internal` stands for a wrapped unexpected persistence error. -/
inductive SvcError where
  | todoNotFound
  | forbidden
  | invalidTodoID
  | categoryRequired
  | noWritePermission
  | categoryNotFound
  | categoryForbidden
  | categoryNameExists
  | userNotFound
  | cannotShareWithSelf
  | shareAlreadyExists
  | shareNotFound
  | internal
  deriving DecidableEq

/-- `TodoServiceImpl.checkCategoryPermission`: `none` means the check passed,
`some e` is the returned error. The `.getD ""` mirrors the Go code leaving
`permission` as the zero value `""` when the repository reports `sql.ErrNoRows`. -/
def checkCategoryPermission (db : DB) (userID categoryID : Nat)
    (requireWrite : Bool) : Option SvcError :=
  match getCategoryByID db categoryID with
  | none => some .categoryNotFound
  | some category =>
    if category.ownerID == userID then none
    else
      let permission := (getUserPermissionForCategory db userID categoryID).getD ""
      if permission == "none" || permission == "" then some .forbidden
      else if requireWrite && permission != "write" then some .noWritePermission
      else none

section BasicPermissionClaims

/-- C1: for a category that exists, the SQL permission resolution returns
exactly one of owner/write/read/none (given the schema's ENUM invariant on
share rows); it returns "owner" iff the user is the stored owner (any share
row for the pair is not consulted in that case); otherwise it returns the
share row's permission when one exists and "none" when none exists. -/
theorem resolve_returns_owner_iff_stored_owner (db : DB) (u cid : Nat)
    (cat : Category) (hcat : getCategoryByID db cid = some cat)
    (hwf : ∀ s ∈ db.shares, s.permission = "read" ∨ s.permission = "write") :
    ∃ p, getUserPermissionForCategory db u cid = some p ∧
      (p = "owner" ∨ p = "write" ∨ p = "read" ∨ p = "none") ∧
      (p = "owner" ↔ cat.ownerID = u) ∧
      (cat.ownerID ≠ u →
        (∀ s, getCategoryShareByCategoryAndUser db cid u = some s → p = s.permission) ∧
        (getCategoryShareByCategoryAndUser db cid u = none → p = "none")) := by
  unfold getUserPermissionForCategory
  rw [hcat]
  simp only [Option.map_some']
  by_cases how : cat.ownerID = u
  · refine ⟨"owner", ?_, ?_, ?_, ?_⟩
    · simp [how]
    · left; rfl
    · simp [how]
    · intro h; exact absurd how h
  · cases hs : getCategoryShareByCategoryAndUser db cid u with
    | none =>
      refine ⟨"none", ?_, ?_, ?_, ?_⟩
      · simp [how, hs]
      · right; right; right; rfl
      · constructor
        · intro h; exact absurd h (by decide)
        · intro h; exact absurd h how
      · intro _
        refine ⟨fun s hsome => ?_, fun _ => rfl⟩
        exact absurd hsome (by simp)
    | some s =>
      have hmem : s ∈ db.shares := List.mem_of_find?_eq_some hs
      have hperm := hwf s hmem
      refine ⟨s.permission, ?_, ?_, ?_, ?_⟩
      · simp [how, hs]
      · rcases hperm with h | h
        · right; right; left; exact h
        · right; left; exact h
      · constructor
        · intro h
          rcases hperm with hp | hp <;> rw [hp] at h <;> exact absurd h (by decide)
        · intro h; exact absurd h how
      · intro _
        refine ⟨fun t hsome => ?_, fun hnone => ?_⟩
        · injection hsome with h; rw [h]
        · exact absurd hnone (by simp)

/-- Witness for C1: a category owned by user 1 that also carries a (stale)
share row for the owner still resolves to "owner" for user 1, and to the
share's permission for user 2. -/
theorem resolve_returns_owner_iff_stored_owner_witness :
    (getCategoryByID
        { users := [], categories := [⟨1, "Work", 1⟩],
          shares := [⟨5, 1, 1, "read", 0⟩, ⟨6, 1, 2, "write", 0⟩],
          todos := [], nextTodoID := 1, nextCategoryID := 2, nextShareID := 7,
          now := 0 } 1 = some ⟨1, "Work", 1⟩) ∧
    (∃ p, getUserPermissionForCategory
        { users := [], categories := [⟨1, "Work", 1⟩],
          shares := [⟨5, 1, 1, "read", 0⟩, ⟨6, 1, 2, "write", 0⟩],
          todos := [], nextTodoID := 1, nextCategoryID := 2, nextShareID := 7,
          now := 0 } 1 1 = some p ∧
      (p = "owner" ∨ p = "write" ∨ p = "read" ∨ p = "none") ∧
      (p = "owner" ↔ (⟨1, "Work", 1⟩ : Category).ownerID = 1) ∧
      ((⟨1, "Work", 1⟩ : Category).ownerID ≠ 1 →
        (∀ s, getCategoryShareByCategoryAndUser
            { users := [], categories := [⟨1, "Work", 1⟩],
              shares := [⟨5, 1, 1, "read", 0⟩, ⟨6, 1, 2, "write", 0⟩],
              todos := [], nextTodoID := 1, nextCategoryID := 2, nextShareID := 7,
              now := 0 } 1 1 = some s → p = s.permission) ∧
        (getCategoryShareByCategoryAndUser
            { users := [], categories := [⟨1, "Work", 1⟩],
              shares := [⟨5, 1, 1, "read", 0⟩, ⟨6, 1, 2, "write", 0⟩],
              todos := [], nextTodoID := 1, nextCategoryID := 2, nextShareID := 7,
              now := 0 } 1 1 = none → p = "none"))) :=
  ⟨by decide,
   resolve_returns_owner_iff_stored_owner _ 1 1 ⟨1, "Work", 1⟩ (by decide)
     (by decide)⟩

/-- C10: for a non-owner whose share row carries permission string `p`, the
task-service permission check grants read access iff `p` is neither "none"
nor "", grants write access iff `p` is exactly "write", and treats any other
string (e.g. "admin") as read-only: the write-required check fails with
`ErrNoWritePermission` while the read-required check passes. -/
theorem checkCategoryPermission_string_semantics (db : DB) (u cid : Nat)
    (cat : Category) (s : CategoryShare)
    (hcat : getCategoryByID db cid = some cat)
    (hno : cat.ownerID ≠ u)
    (hs : getCategoryShareByCategoryAndUser db cid u = some s) :
    (checkCategoryPermission db u cid false = none ↔
      (s.permission ≠ "none" ∧ s.permission ≠ "")) ∧
    (checkCategoryPermission db u cid true = none ↔ s.permission = "write") ∧
    (s.permission ≠ "none" → s.permission ≠ "" → s.permission ≠ "write" →
      checkCategoryPermission db u cid true = some .noWritePermission ∧
      checkCategoryPermission db u cid false = none) := by
  unfold checkCategoryPermission getUserPermissionForCategory
  rw [hcat]
  simp only [Option.map_some', Option.getD_some, hs]
  refine ⟨?_, ?_, ?_⟩
  · by_cases h1 : s.permission = "none"
    · simp [hno, h1]
    · by_cases h2 : s.permission = ""
      · simp [hno, h2]
      · simp [hno, h1, h2]
  · by_cases h1 : s.permission = "none"
    · simp [hno, h1]
    · by_cases h2 : s.permission = ""
      · simp [hno, h2]
      · by_cases h3 : s.permission = "write"
        · simp [hno, h1, h2, h3]
        · simp [hno, h1, h2, h3]
  · intro h1 h2 h3
    simp [hno, h1, h2, h3]

/-- Witness for C10: a share row with the unexpected permission string
"admin" passes the read check but fails the write check. -/
theorem checkCategoryPermission_string_semantics_witness :
    (checkCategoryPermission
        { users := [], categories := [⟨1, "Work", 1⟩],
          shares := [⟨6, 1, 2, "admin", 0⟩], todos := [],
          nextTodoID := 1, nextCategoryID := 2, nextShareID := 7, now := 0 }
        2 1 false = none ↔
      (("admin" : String) ≠ "none" ∧ ("admin" : String) ≠ "")) ∧
    (checkCategoryPermission
        { users := [], categories := [⟨1, "Work", 1⟩],
          shares := [⟨6, 1, 2, "admin", 0⟩], todos := [],
          nextTodoID := 1, nextCategoryID := 2, nextShareID := 7, now := 0 }
        2 1 true = none ↔ ("admin" : String) = "write") ∧
    (("admin" : String) ≠ "none" → ("admin" : String) ≠ "" →
      ("admin" : String) ≠ "write" →
      checkCategoryPermission
          { users := [], categories := [⟨1, "Work", 1⟩],
            shares := [⟨6, 1, 2, "admin", 0⟩], todos := [],
            nextTodoID := 1, nextCategoryID := 2, nextShareID := 7, now := 0 }
          2 1 true = some .noWritePermission ∧
      checkCategoryPermission
          { users := [], categories := [⟨1, "Work", 1⟩],
            shares := [⟨6, 1, 2, "admin", 0⟩], todos := [],
            nextTodoID := 1, nextCategoryID := 2, nextShareID := 7, now := 0 }
          2 1 false = none) :=
  checkCategoryPermission_string_semantics _ 2 1 ⟨1, "Work", 1⟩ ⟨6, 1, 2, "admin", 0⟩
    (by decide) (by decide) (by decide)

end BasicPermissionClaims

/-- `dto.ShareCategoryRequest`. -/
structure ShareCategoryRequest where
  categoryID : Nat
  ownerID : Nat
  shareWithEmail : String
  permission : String
  deriving DecidableEq

/-- `CategoryServiceImpl.ShareCategory` together with the repository's
`CreateCategoryShare` (INSERT with auto-increment id, then fetch by id).
Returns the possibly-updated database and the result. -/
def shareCategory (db : DB) (req : ShareCategoryRequest) :
    DB × Except SvcError CategoryShare :=
  match getCategoryByID db req.categoryID with
  | none => (db, .error .categoryNotFound)
  | some category =>
    if category.ownerID ≠ req.ownerID then (db, .error .categoryForbidden)
    else
      match getUserByEmail db req.shareWithEmail with
      | none => (db, .error .userNotFound)
      | some shareWithUser =>
        if shareWithUser.id == req.ownerID then (db, .error .cannotShareWithSelf)
        else
          match getCategoryShareByCategoryAndUser db req.categoryID shareWithUser.id with
          | some _ => (db, .error .shareAlreadyExists)
          | none =>
            let share : CategoryShare :=
              { id := db.nextShareID, categoryID := req.categoryID,
                sharedWithUserID := shareWithUser.id,
                permission := req.permission, createdAt := db.now }
            let db2 : DB :=
              { db with shares := db.shares ++ [share],
                        nextShareID := db.nextShareID + 1 }
            match db2.shares.find? (fun s => s.id == share.id) with
            | some created => (db2, .ok created)
            | none => (db2, .error .internal)

section SharingClaims

/-- C6: when the owner of an existing category shares it with an email that
resolves to the owner themself, the operation fails with
`ErrCannotShareWithSelf` and the database (in particular the share table) is
left unchanged. -/
theorem shareCategory_self_always_conflict (db : DB) (req : ShareCategoryRequest)
    (cat : Category) (target : User)
    (hcat : getCategoryByID db req.categoryID = some cat)
    (hown : cat.ownerID = req.ownerID)
    (hu : getUserByEmail db req.shareWithEmail = some target)
    (hself : target.id = req.ownerID) :
    shareCategory db req = (db, .error .cannotShareWithSelf) := by
  unfold shareCategory
  rw [hcat, hu]
  simp [hown, hself]

/-- Witness for C6: owner 1 of category 1 shares with their own email. -/
theorem shareCategory_self_always_conflict_witness :
    shareCategory
        { users := [⟨1, "o", "o@x.com"⟩], categories := [⟨1, "Work", 1⟩],
          shares := [], todos := [], nextTodoID := 1, nextCategoryID := 2,
          nextShareID := 1, now := 0 }
        ⟨1, 1, "o@x.com", "write"⟩ =
      ({ users := [⟨1, "o", "o@x.com"⟩], categories := [⟨1, "Work", 1⟩],
         shares := [], todos := [], nextTodoID := 1, nextCategoryID := 2,
         nextShareID := 1, now := 0 }, .error .cannotShareWithSelf) :=
  shareCategory_self_always_conflict _ _ ⟨1, "Work", 1⟩ ⟨1, "o", "o@x.com"⟩
    (by decide) (by decide) (by decide) (by decide)

/-- C7: when a share row for `(category, target)` already exists and the
owner attempts a second share for that pair (the target being a user other
than the owner, as any share created through the service is), the operation
fails with `ErrShareAlreadyExists` and the database — hence the existing
share row's id, permission and created_at — is left unchanged. -/
theorem shareCategory_duplicate_conflict (db : DB) (req : ShareCategoryRequest)
    (cat : Category) (target : User) (s : CategoryShare)
    (hcat : getCategoryByID db req.categoryID = some cat)
    (hown : cat.ownerID = req.ownerID)
    (hu : getUserByEmail db req.shareWithEmail = some target)
    (hne : target.id ≠ req.ownerID)
    (hs : getCategoryShareByCategoryAndUser db req.categoryID target.id = some s) :
    shareCategory db req = (db, .error .shareAlreadyExists) := by
  unfold shareCategory
  rw [hcat, hu]
  simp [hown, hne, hs]

/-- Witness for C7: category 1 (owner 1) is already shared with user 2; a
second share attempt for user 2 fails and leaves the state unchanged. -/
theorem shareCategory_duplicate_conflict_witness :
    (⟨2, "s", "s@x.com"⟩ : User).id ≠ (1 : Nat) ∧
    shareCategory
        { users := [⟨1, "o", "o@x.com"⟩, ⟨2, "s", "s@x.com"⟩],
          categories := [⟨1, "Work", 1⟩],
          shares := [⟨7, 1, 2, "read", 5⟩], todos := [],
          nextTodoID := 1, nextCategoryID := 2, nextShareID := 8, now := 9 }
        ⟨1, 1, "s@x.com", "write"⟩ =
      ({ users := [⟨1, "o", "o@x.com"⟩, ⟨2, "s", "s@x.com"⟩],
         categories := [⟨1, "Work", 1⟩],
         shares := [⟨7, 1, 2, "read", 5⟩], todos := [],
         nextTodoID := 1, nextCategoryID := 2, nextShareID := 8, now := 9 },
       .error .shareAlreadyExists) :=
  ⟨by decide,
   shareCategory_duplicate_conflict _ _ ⟨1, "Work", 1⟩ ⟨2, "s", "s@x.com"⟩
     ⟨7, 1, 2, "read", 5⟩ (by decide) (by decide) (by decide) (by decide)
     (by decide)⟩

end SharingClaims

/-- `dto.GetTodoRequest`. -/
structure GetTodoRequest where
  id : Nat
  userID : Nat
  deriving DecidableEq

/-- `TodoServiceImpl.GetTodoByID`: fetch the todo (any repository error is
collapsed to `ErrTodoNotFound`), then require at least read permission on the
todo's category. -/
def getTodoByIDService (db : DB) (req : GetTodoRequest) : Except SvcError Todo :=
  match getTodoByID db req.id with
  | none => .error .todoNotFound
  | some todo =>
    match checkCategoryPermission db req.userID todo.categoryID false with
    | some e => .error e
    | none => .ok todo

section GetClaims

/-- C2 counterexample: category 1 is owned by user 1 and contains the live
task 10; user 2 has no share row, so their resolved permission is none —
yet `Get` fails with `ErrForbidden`, not with `ErrTodoNotFound` as the claim
states. -/
theorem getTodo_permission_none_not_notFound :
    (getTodoByID
        { users := [], categories := [⟨1, "Work", 1⟩], shares := [],
          todos := [⟨10, "A", "", 1, false, 1, 1, false, 0⟩],
          nextTodoID := 11, nextCategoryID := 2, nextShareID := 1, now := 0 }
        10).isSome = true ∧
    getUserPermissionForCategory
        { users := [], categories := [⟨1, "Work", 1⟩], shares := [],
          todos := [⟨10, "A", "", 1, false, 1, 1, false, 0⟩],
          nextTodoID := 11, nextCategoryID := 2, nextShareID := 1, now := 0 }
        2 1 = some "none" ∧
    getTodoByIDService
        { users := [], categories := [⟨1, "Work", 1⟩], shares := [],
          todos := [⟨10, "A", "", 1, false, 1, 1, false, 0⟩],
          nextTodoID := 11, nextCategoryID := 2, nextShareID := 1, now := 0 }
        ⟨10, 2⟩ = .error .forbidden ∧
    SvcError.forbidden ≠ SvcError.todoNotFound := by
  refine ⟨by decide, by decide, by rfl, by decide⟩

/-- C2 as amended: for an existing, non-deleted task whose category the user
neither owns nor has a share row for (e.g. right after the owner revoked the
share), `Get` fails with the Forbidden outcome `ErrForbidden`, which is a
distinct outcome from the `ErrTodoNotFound` returned for nonexistent tasks. -/
theorem getTodo_permission_none_forbidden (db : DB) (req : GetTodoRequest)
    (todo : Todo) (cat : Category)
    (ht : getTodoByID db req.id = some todo)
    (hcat : getCategoryByID db todo.categoryID = some cat)
    (hno : cat.ownerID ≠ req.userID)
    (hshare : getCategoryShareByCategoryAndUser db todo.categoryID req.userID = none) :
    getTodoByIDService db req = .error .forbidden ∧
      (SvcError.forbidden ≠ SvcError.todoNotFound) := by
  refine ⟨?_, by decide⟩
  have hchk : checkCategoryPermission db req.userID todo.categoryID false =
      some .forbidden := by
    simp only [checkCategoryPermission, getUserPermissionForCategory, hcat, hshare]
    simp [hno]
  simp only [getTodoByIDService, ht, hchk]

/-- Witness for C2's amended theorem at the counterexample state. -/
theorem getTodo_permission_none_forbidden_witness :
    getTodoByIDService
        { users := [], categories := [⟨1, "Work", 1⟩], shares := [],
          todos := [⟨10, "A", "", 1, false, 1, 1, false, 0⟩],
          nextTodoID := 11, nextCategoryID := 2, nextShareID := 1, now := 0 }
        ⟨10, 2⟩ = .error .forbidden ∧
      (SvcError.forbidden ≠ SvcError.todoNotFound) :=
  getTodo_permission_none_forbidden _ ⟨10, 2⟩ ⟨10, "A", "", 1, false, 1, 1, false, 0⟩
    ⟨1, "Work", 1⟩ (by decide) (by decide) (by decide) (by decide)

end GetClaims

/-- `dto.CreateTodoRequest`: `categoryID` is the optional explicit id,
`category` the optional category name ("" when absent). -/
structure CreateTodoRequest where
  userID : Nat
  title : String
  description : String
  categoryID : Option Nat
  category : String
  deriving DecidableEq

/-- `SQLTodoRepository.CreateTodo`: INSERT the row (auto-increment id,
`deleted_at` NULL, `created_at` now) and re-fetch it by the new id. -/
def repoCreateTodo (db : DB) (todo : Todo) : DB × Except SvcError Todo :=
  let newTodo : Todo :=
    { todo with id := db.nextTodoID, deleted := false, createdAt := db.now }
  let db2 : DB :=
    { db with todos := db.todos ++ [newTodo], nextTodoID := db.nextTodoID + 1 }
  match getTodoByID db2 newTodo.id with
  | some t => (db2, .ok t)
  | none => (db2, .error .internal)

/-- `TodoServiceImpl.getOrCreateCategory`: look the name up for this owner;
on `sql.ErrNoRows` create the category (repository INSERT + fetch). -/
def getOrCreateCategory (db : DB) (userID : Nat) (categoryName : String) :
    DB × Category :=
  match getCategoryByNameAndOwner db userID categoryName with
  | some c => (db, c)
  | none =>
    let c : Category := { id := db.nextCategoryID, name := categoryName, ownerID := userID }
    ({ db with categories := db.categories ++ [c],
               nextCategoryID := db.nextCategoryID + 1 }, c)

/-- The tail of `TodoServiceImpl.CreateTodo` once the category is resolved:
build the row with `UserID = CreatedBy = req.UserID` and insert it. -/
def finishCreateTodo (db : DB) (req : CreateTodoRequest) (category : Category) :
    DB × Except SvcError Todo :=
  repoCreateTodo db
    { id := 0, title := req.title, description := req.description,
      categoryID := category.id, completed := false,
      userID := req.userID, createdBy := req.userID,
      deleted := false, createdAt := 0 }

/-- The category-name branch of `TodoServiceImpl.CreateTodo` (taken when no
positive explicit category id is supplied). -/
def createTodoByName (db : DB) (req : CreateTodoRequest) :
    DB × Except SvcError Todo :=
  if req.category == "" then (db, .error .categoryRequired)
  else
    let (db2, category) := getOrCreateCategory db req.userID req.category
    finishCreateTodo db2 req category

/-- `TodoServiceImpl.CreateTodo`: an explicit positive `categoryID` requires
write permission on that category; otherwise the category name is resolved
with get-or-create semantics scoped to the requesting user. -/
def createTodoService (db : DB) (req : CreateTodoRequest) :
    DB × Except SvcError Todo :=
  match req.categoryID with
  | some cid =>
    if 0 < cid then
      match checkCategoryPermission db req.userID cid true with
      | some e => (db, .error e)
      | none =>
        match getCategoryByID db cid with
        | none => (db, .error .categoryNotFound)
        | some category => finishCreateTodo db req category
    else createTodoByName db req
  | none => createTodoByName db req

/-- `dto.UpdateTodoRequest` (partial update; `none` = field absent). -/
structure UpdateTodoRequest where
  id : Nat
  userID : Nat
  title : Option String
  description : Option String
  completed : Option Bool
  categoryID : Option Nat
  deriving DecidableEq

/-- `SQLTodoRepository.UpdateTodo` with the sqlc `UpdateTodo` statement:
`UPDATE todos SET title = ?, description = ?, category_id = ?, completed = ?
 WHERE id = ? AND deleted_at IS NULL` — note that `user_id` is NOT in the SET
list — followed by a re-fetch of the stored row, which overwrites the
in-memory struct. -/
def repoUpdateTodo (db : DB) (todo : Todo) : DB × Except SvcError Todo :=
  let db2 : DB :=
    { db with todos := db.todos.map (fun t =>
        if t.id == todo.id && !t.deleted then
          { t with title := todo.title, description := todo.description,
                   categoryID := todo.categoryID, completed := todo.completed }
        else t) }
  match getTodoByID db2 todo.id with
  | some t => (db2, .ok t)
  | none => (db2, .error .internal)

/-- The category-change step of `TodoServiceImpl.UpdateTodo`: when the
request carries a category id different from the current one, require write
permission there and set the in-memory `UserID` to the new category's owner. -/
def applyCategoryChange (db : DB) (req : UpdateTodoRequest) (todo : Todo) :
    Except SvcError Todo :=
  match req.categoryID with
  | some cid =>
    if cid ≠ todo.categoryID then
      match checkCategoryPermission db req.userID cid true with
      | some e => .error e
      | none =>
        match getCategoryByID db cid with
        | none => .error .categoryNotFound
        | some newCategory => .ok { todo with categoryID := cid, userID := newCategory.ownerID }
    else .ok todo
  | none => .ok todo

/-- The partial-field step of `TodoServiceImpl.UpdateTodo`: only provided
fields are applied, and a provided empty title is ignored. -/
def applyFieldUpdates (req : UpdateTodoRequest) (todo : Todo) : Todo :=
  let t1 :=
    match req.title with
    | some s => if s ≠ "" then { todo with title := s } else todo
    | none => todo
  let t2 :=
    match req.description with
    | some d => { t1 with description := d }
    | none => t1
  match req.completed with
  | some c => { t2 with completed := c }
  | none => t2

/-- `TodoServiceImpl.UpdateTodo`: fetch, require write on the current
category, optionally validate and apply a category change, apply partial
fields, then persist through the repository. -/
def updateTodoService (db : DB) (req : UpdateTodoRequest) :
    DB × Except SvcError Todo :=
  match getTodoByID db req.id with
  | none => (db, .error .todoNotFound)
  | some todo =>
    match checkCategoryPermission db req.userID todo.categoryID true with
    | some e => (db, .error e)
    | none =>
      match applyCategoryChange db req todo with
      | .error e => (db, .error e)
      | .ok todo2 => repoUpdateTodo db (applyFieldUpdates req todo2)

section UpdateMoveClaim

/-- Database for the category-move scenario: category 1 owned by user 1,
category 2 owned by user 2 and shared with user 1 at write level, and live
task 10 in category 1 owned and created by user 1. -/
def moveDB : DB :=
  { users := [], categories := [⟨1, "Work", 1⟩, ⟨2, "Other", 2⟩],
    shares := [⟨1, 2, 1, "write", 0⟩],
    todos := [⟨10, "A", "", 1, false, 1, 1, false, 3⟩],
    nextTodoID := 11, nextCategoryID := 3, nextShareID := 2, now := 7 }

/-- Update request moving task 10 into category 2. -/
def moveReq : UpdateTodoRequest := ⟨10, 1, none, none, none, some 2⟩

/-- C3: user 1 has write permission on both the current category 1 and the
target category 2 (whose stored owner is user 2), and the move succeeds —
but both the returned task and the stored row keep `owner_user_id = 1`: the
service assigns `todo.UserID = newCategory.OwnerID`, yet the repository's
UPDATE statement omits `user_id` and the post-update re-fetch overwrites the
in-memory value, so the ownership transfer promised by the service's own
comment (and by the schema comment `user_id -- Owner (category owner)`) is
silently dropped. -/
theorem updateTodo_move_does_not_transfer_owner :
    checkCategoryPermission moveDB 1 1 true = none ∧
    checkCategoryPermission moveDB 1 2 true = none ∧
    (getCategoryByID moveDB 2).map Category.ownerID = some 2 ∧
    (updateTodoService moveDB moveReq).2 =
      .ok ⟨10, "A", "", 2, false, 1, 1, false, 3⟩ ∧
    ((updateTodoService moveDB moveReq).1.todos.find?
        (fun t => t.id == 10)).map Todo.userID = some 1 := by
  refine ⟨by decide, by decide, by decide, by rfl, by decide⟩

end UpdateMoveClaim

section CreateClaims

/-- Insertion through `SQLTodoRepository.CreateTodo` returns exactly the
freshly inserted row when all existing todo ids are below the auto-increment
counter. -/
theorem repoCreateTodo_eq (db : DB) (todo : Todo)
    (hfresh : ∀ t ∈ db.todos, t.id < db.nextTodoID) :
    repoCreateTodo db todo =
      ({ db with
          todos := db.todos ++
            [{ todo with id := db.nextTodoID, deleted := false, createdAt := db.now }],
          nextTodoID := db.nextTodoID + 1 },
       .ok { todo with id := db.nextTodoID, deleted := false, createdAt := db.now }) := by
  unfold repoCreateTodo
  have hnone : db.todos.find?
      (fun t => t.id == db.nextTodoID && !t.deleted) = none := by
    rw [List.find?_eq_none]
    intro t ht
    have := hfresh t ht
    simp only [Bool.and_eq_true, beq_iff_eq, Bool.not_eq_true']
    rintro ⟨h, -⟩
    omega
  have hfind : getTodoByID
      { db with
        todos := db.todos ++
          [{ todo with id := db.nextTodoID, deleted := false, createdAt := db.now }],
        nextTodoID := db.nextTodoID + 1 } db.nextTodoID =
      some { todo with id := db.nextTodoID, deleted := false, createdAt := db.now } := by
    unfold getTodoByID
    rw [List.find?_append, hnone]
    simp
  simp only [hfind]

/-- `finishCreateTodo` under the same freshness invariant: the created task
carries `UserID = CreatedBy = req.userID` and the resolved category's id. -/
theorem finishCreateTodo_eq (db : DB) (req : CreateTodoRequest) (category : Category)
    (hfresh : ∀ t ∈ db.todos, t.id < db.nextTodoID) :
    finishCreateTodo db req category =
      ({ db with
          todos := db.todos ++
            [⟨db.nextTodoID, req.title, req.description, category.id, false,
              req.userID, req.userID, false, db.now⟩],
          nextTodoID := db.nextTodoID + 1 },
       .ok ⟨db.nextTodoID, req.title, req.description, category.id, false,
            req.userID, req.userID, false, db.now⟩) := by
  unfold finishCreateTodo
  rw [repoCreateTodo_eq db _ hfresh]

/-- Database for the shared-category creation scenario: category 1 owned by
user 1 and shared with user 2 at write level. -/
def sharedCreateDB : DB :=
  { users := [], categories := [⟨1, "Work", 1⟩],
    shares := [⟨1, 1, 2, "write", 0⟩], todos := [],
    nextTodoID := 5, nextCategoryID := 2, nextShareID := 2, now := 4 }

/-- User 2 creates a task into category 1 by explicit id. -/
def sharedCreateReq : CreateTodoRequest := ⟨2, "T", "", some 1, ""⟩

/-- C4 counterexample: category 1 is owned by user 1 and shared with user 2
at write level; user 2 creates into it with an explicit category id. The
creation succeeds, but the resulting task has `owner_user_id = 2` (the
creating user), not the resolved category's owner 1 as the claim states. -/
theorem createTodo_shared_category_owner_counterexample :
    (getCategoryByID sharedCreateDB 1).map Category.ownerID = some 1 ∧
    (createTodoService sharedCreateDB sharedCreateReq).2 =
      .ok ⟨5, "T", "", 1, false, 2, 2, false, 4⟩ ∧
    (2 : Nat) ≠ 1 := by
  refine ⟨by decide, by rfl, by decide⟩

/-- C4 as amended: when an explicit positive categoryID is given it must
resolve with write permission (failures propagate, success implies the check
passed); every successfully created task has `owner_user_id` AND
`created_by_user_id` equal to the creating user (even in a shared category
owned by someone else); when only a category name is given, an existing
category with that name owned by the user is reused, otherwise one is
created with the user as owner; when neither is given the operation fails
with `ErrCategoryRequired`. -/
theorem createTodo_spec (db : DB) (req : CreateTodoRequest)
    (hfresh : ∀ t ∈ db.todos, t.id < db.nextTodoID) :
    (∀ cid, req.categoryID = some cid → 0 < cid →
      ∀ e, checkCategoryPermission db req.userID cid true = some e →
        createTodoService db req = (db, .error e)) ∧
    (∀ cid, req.categoryID = some cid → 0 < cid →
      ∀ db2 t, createTodoService db req = (db2, .ok t) →
        checkCategoryPermission db req.userID cid true = none) ∧
    (∀ db2 t, createTodoService db req = (db2, .ok t) →
      t.userID = req.userID ∧ t.createdBy = req.userID) ∧
    (req.categoryID = none → req.category ≠ "" →
      ∀ c, getCategoryByNameAndOwner db req.userID req.category = some c →
        ∀ db2 t, createTodoService db req = (db2, .ok t) →
          t.categoryID = c.id ∧ db2.categories = db.categories) ∧
    (req.categoryID = none → req.category ≠ "" →
      getCategoryByNameAndOwner db req.userID req.category = none →
        ∀ db2 t, createTodoService db req = (db2, .ok t) →
          t.categoryID = db.nextCategoryID ∧
          db2.categories =
            db.categories ++ [⟨db.nextCategoryID, req.category, req.userID⟩]) ∧
    (req.categoryID = none → req.category = "" →
      createTodoService db req = (db, .error .categoryRequired)) := by
  refine ⟨?_, ?_, ?_, ?_, ?_, ?_⟩
  · intro cid hcid hpos e he
    unfold createTodoService
    rw [hcid]
    simp [hpos, he]
  · intro cid hcid hpos db2 t hok
    unfold createTodoService at hok
    rw [hcid] at hok
    simp only [hpos, if_true] at hok
    cases hchk : checkCategoryPermission db req.userID cid true with
    | none => rfl
    | some e => rw [hchk] at hok; simp at hok
  · intro db2 t hok
    have hmain : ∀ dbx : DB, (∀ u ∈ dbx.todos, u.id < dbx.nextTodoID) →
        ∀ cat : Category, finishCreateTodo dbx req cat = (db2, .ok t) →
        t.userID = req.userID ∧ t.createdBy = req.userID := by
      intro dbx hfx cat hfin
      rw [finishCreateTodo_eq dbx req cat hfx] at hfin
      have := congrArg Prod.snd hfin
      simp only at this
      injection this with h
      rw [← h]
      exact ⟨rfl, rfl⟩
    have hname : createTodoByName db req = (db2, .ok t) →
        t.userID = req.userID ∧ t.createdBy = req.userID := by
      intro hok2
      unfold createTodoByName at hok2
      by_cases hempty : req.category = ""
      · simp [hempty] at hok2
      · rw [if_neg (by simpa using hempty)] at hok2
        unfold getOrCreateCategory at hok2
        cases hfindc : getCategoryByNameAndOwner db req.userID req.category with
        | some c =>
          rw [hfindc] at hok2
          exact hmain db hfresh c hok2
        | none =>
          rw [hfindc] at hok2
          exact hmain _ (by simpa using hfresh) _ hok2
    unfold createTodoService at hok
    cases hcid : req.categoryID with
    | none => simp only [hcid] at hok; exact hname hok
    | some cid =>
      simp only [hcid] at hok
      by_cases hpos : 0 < cid
      · rw [if_pos hpos] at hok
        cases hchk : checkCategoryPermission db req.userID cid true with
        | some e => simp only [hchk] at hok; simp at hok
        | none =>
          simp only [hchk] at hok
          cases hcat : getCategoryByID db cid with
          | none => simp only [hcat] at hok; simp at hok
          | some category =>
            simp only [hcat] at hok
            exact hmain db hfresh category hok
      · rw [if_neg hpos] at hok
        exact hname hok
  · intro hnone hnem c hfindc db2 t hok
    unfold createTodoService at hok
    simp only [hnone] at hok
    unfold createTodoByName at hok
    rw [if_neg (by simpa using hnem)] at hok
    unfold getOrCreateCategory at hok
    simp only [hfindc] at hok
    rw [finishCreateTodo_eq db req c hfresh] at hok
    have h1 := congrArg Prod.fst hok
    have h2 := congrArg Prod.snd hok
    simp only at h1 h2
    injection h2 with h2
    rw [← h2, ← h1]
    exact ⟨rfl, rfl⟩
  · intro hnone hnem hfindc db2 t hok
    unfold createTodoService at hok
    simp only [hnone] at hok
    unfold createTodoByName at hok
    rw [if_neg (by simpa using hnem)] at hok
    unfold getOrCreateCategory at hok
    simp only [hfindc] at hok
    rw [finishCreateTodo_eq _ req _ (by simpa using hfresh)] at hok
    have h1 := congrArg Prod.fst hok
    have h2 := congrArg Prod.snd hok
    simp only at h1 h2
    injection h2 with h2
    rw [← h2, ← h1]
    exact ⟨rfl, rfl⟩
  · intro hnone hempty
    unfold createTodoService
    simp only [hnone]
    unfold createTodoByName
    simp [hempty]

/-- Witness for C4's amended theorem on the shared-category database. -/
theorem createTodo_spec_witness :
    (∀ t ∈ sharedCreateDB.todos, t.id < sharedCreateDB.nextTodoID) ∧
    (∀ db2 t, createTodoService sharedCreateDB sharedCreateReq = (db2, .ok t) →
      t.userID = sharedCreateReq.userID ∧ t.createdBy = sharedCreateReq.userID) :=
  ⟨by simp [sharedCreateDB],
   (createTodo_spec sharedCreateDB sharedCreateReq (by simp [sharedCreateDB])).2.2.1⟩

end CreateClaims

/-- `services.PaginationConfig` (wired from DEFAULT_PAGE_SIZE /
MAX_PAGE_SIZE, production defaults 10 and 100). -/
structure PaginationConfig where
  defaultPageSize : Int
  maxPageSize : Int
  deriving DecidableEq

/-- `dto.TodoListResponse`. -/
structure TodoListResponse where
  todos : List Todo
  total : Int
  page : Int
  pageSize : Int
  totalPages : Int
  deriving DecidableEq

/-- The row set of `CountTodosByUserID` / `GetTodosByUserIDWithPagination`:
`WHERE user_id = ? AND deleted_at IS NULL`. -/
def userTodos (db : DB) (userID : Nat) : List Todo :=
  db.todos.filter (fun t => t.userID == userID && !t.deleted)

/-- `CountTodosByUserID`. -/
def countTodosByUserID (db : DB) (userID : Nat) : Nat :=
  (userTodos db userID).length

/-- `GetTodosByUserIDWithPagination`: the user's live todos ordered by
`created_at DESC`, then `LIMIT ? OFFSET ?`. -/
def getTodosByUserIDWithPagination (db : DB) (userID : Nat) (limit offset : Int) :
    List Todo :=
  ((((userTodos db userID).mergeSort
      (fun a b => decide (b.createdAt ≤ a.createdAt))).drop offset.toNat).take
    limit.toNat)

/-- `SQLTodoRepository.GetTodos`: count first, short-circuit on zero,
otherwise fetch the page at offset `(page-1)*pageSize`. -/
def repoGetTodos (db : DB) (userID : Nat) (page pageSize : Int) :
    List Todo × Nat :=
  let total := countTodosByUserID db userID
  if total = 0 then ([], total)
  else
    let offset := (page - 1) * pageSize
    let limit := pageSize
    (getTodosByUserIDWithPagination db userID limit offset, total)

/-- `TodoServiceImpl.GetTodos`: normalize `page`/`pageSize`, call the
repository, and compute `totalPages = (total + pageSize - 1) / pageSize`
(Go's truncating int64 division, `Int.tdiv`). -/
def getTodosService (cfg : PaginationConfig) (db : DB) (userID : Nat)
    (page pageSize : Int) : TodoListResponse :=
  let page2 := max page 1
  let pageSize2 := if pageSize < 1 then cfg.defaultPageSize else pageSize
  let pageSize3 := min pageSize2 cfg.maxPageSize
  let result := repoGetTodos db userID page2 pageSize3
  let total : Int := (result.2 : Int)
  { todos := result.1, total := total, page := page2, pageSize := pageSize3,
    totalPages := (total + pageSize3 - 1).tdiv pageSize3 }

section ListClaims

/-- The accessible-set predicate as the claim states it ("tasks whose
owner_user_id equals U OR tasks living in a category shared with U at any
permission level"). This definition follows the SPEC's words, not the code,
and exists to be compared with `getTodosService`. -/
def specAccessible (db : DB) (userID : Nat) (t : Todo) : Bool :=
  t.userID == userID ||
    db.shares.any (fun s => s.categoryID == t.categoryID && s.sharedWithUserID == userID)

/-- Database for the list counterexample: category 1 owned by user 1 and
shared (read) with user 2; one live task in it owned by user 1. -/
def listDB : DB :=
  { users := [], categories := [⟨1, "Work", 1⟩],
    shares := [⟨1, 1, 2, "read", 0⟩],
    todos := [⟨10, "A", "", 1, false, 1, 1, false, 0⟩],
    nextTodoID := 11, nextCategoryID := 2, nextShareID := 2, now := 0 }

/-- C5 counterexample: task 10 lives in a category shared with user 2, so it
is in the claim's accessible set for user 2, yet `List(user 2, page 1,
pageSize 10)` returns no tasks at all — the implementation queries only
`owner_user_id = userID`. -/
theorem getTodos_not_accessible_set :
    specAccessible listDB 2 ⟨10, "A", "", 1, false, 1, 1, false, 0⟩ = true ∧
    (⟨10, "A", "", 1, false, 1, 1, false, 0⟩ : Todo) ∈ listDB.todos ∧
    (⟨10, "A", "", 1, false, 1, 1, false, 0⟩ : Todo).deleted = false ∧
    (getTodosService ⟨10, 100⟩ listDB 2 1 10).todos = [] := by
  refine ⟨by decide, by decide, by decide, by rfl⟩

/-- C5 as amended: for a page size large enough to hold them all, the task
List operation returns exactly the non-deleted tasks whose `owner_user_id`
equals U — the self-owned set, not the accessible set (tasks merely shared
with U are not returned). -/
theorem getTodos_returns_self_owned (cfg : PaginationConfig) (db : DB)
    (userID : Nat) (pageSize : Int)
    (h1 : 1 ≤ pageSize) (h2 : pageSize ≤ cfg.maxPageSize)
    (h3 : (countTodosByUserID db userID : Int) ≤ pageSize) :
    ∀ t, t ∈ (getTodosService cfg db userID 1 pageSize).todos ↔
      (t ∈ db.todos ∧ t.userID = userID ∧ t.deleted = false) := by
  intro t
  have hmem_user : t ∈ userTodos db userID ↔
      (t ∈ db.todos ∧ t.userID = userID ∧ t.deleted = false) := by
    unfold userTodos
    rw [List.mem_filter]
    simp
  have hnlt : ¬ pageSize < 1 := by omega
  have hmin : min pageSize cfg.maxPageSize = pageSize := min_eq_left h2
  simp only [getTodosService]
  rw [if_neg hnlt, hmin]
  by_cases hzero : countTodosByUserID db userID = 0
  · have hempty : userTodos db userID = [] :=
      List.length_eq_zero.mp hzero
    have hrepo : repoGetTodos db userID (max 1 1) pageSize =
        ([], countTodosByUserID db userID) := by
      simp only [repoGetTodos]
      rw [if_pos hzero]
    rw [hrepo]
    constructor
    · intro h
      exact absurd h (by simp)
    · intro h
      exfalso
      have hm := hmem_user.mpr h
      rw [hempty] at hm
      exact absurd hm (by simp)
  · have hrepo : repoGetTodos db userID (max 1 1) pageSize =
        (getTodosByUserIDWithPagination db userID pageSize
          ((max (1 : Int) 1 - 1) * pageSize), countTodosByUserID db userID) := by
      simp only [repoGetTodos]
      rw [if_neg hzero]
    rw [hrepo]
    have hperm : ((userTodos db userID).mergeSort
        (fun a b => decide (b.createdAt ≤ a.createdAt))).Perm
        (userTodos db userID) := List.mergeSort_perm _ _
    have hlen : ((userTodos db userID).mergeSort
        (fun a b => decide (b.createdAt ≤ a.createdAt))).length ≤
        pageSize.toNat := by
      rw [hperm.length_eq]
      have hcast : (countTodosByUserID db userID : Int) ≤ (pageSize.toNat : Int) := by
        rwa [Int.toNat_of_nonneg (by omega)]
      exact_mod_cast hcast
    have hoff : ((max (1 : Int) 1 - 1) * pageSize).toNat = 0 := by
      norm_num
    show t ∈ getTodosByUserIDWithPagination db userID pageSize
        ((max (1 : Int) 1 - 1) * pageSize) ↔ _
    unfold getTodosByUserIDWithPagination
    rw [hoff]
    rw [List.drop_zero, List.take_of_length_le hlen]
    rw [hperm.mem_iff]
    exact hmem_user

/-- Witness for C5's amended theorem. -/
theorem getTodos_returns_self_owned_witness :
    ((1 : Int) ≤ 10 ∧ (10 : Int) ≤ 100 ∧
      ((countTodosByUserID listDB 1 : Int) ≤ 10)) ∧
    (∀ t, t ∈ (getTodosService ⟨10, 100⟩ listDB 1 1 10).todos ↔
      (t ∈ listDB.todos ∧ t.userID = 1 ∧ t.deleted = false)) :=
  ⟨⟨by decide, by decide, by decide⟩,
   getTodos_returns_self_owned ⟨10, 100⟩ listDB 1 10 (by decide) (by decide)
     (by decide)⟩

/-- `totalPages` is the least count of `pageSize`-sized pages covering
`total`: the ceiling of `total / pageSize`. -/
def isLeastPageCover (total pageSize totalPages : Int) : Prop :=
  0 < pageSize ∧ total ≤ totalPages * pageSize ∧
    ∀ k : Int, 0 ≤ k → total ≤ k * pageSize → totalPages ≤ k

/-- Go's `(T + P - 1) / P` on nonnegative `T` and positive `P` is the least
`q` with `T ≤ q * P`, i.e. the ceiling of `T / P`. -/
theorem tdiv_ceil_least (T P : Int) (hT : 0 ≤ T) (hP : 0 < P) :
    isLeastPageCover T P ((T + P - 1).tdiv P) := by
  have hnum : 0 ≤ T + P - 1 := by omega
  rw [isLeastPageCover, Int.tdiv_eq_ediv hnum (le_of_lt hP)]
  have hmod := Int.ediv_add_emod (T + P - 1) P
  have hmodnn := Int.emod_nonneg (T + P - 1) (by omega : P ≠ 0)
  have hmodlt := Int.emod_lt_of_pos (T + P - 1) hP
  refine ⟨hP, ?_, ?_⟩
  · have hco : ((T + P - 1) / P) * P = P * ((T + P - 1) / P) := mul_comm _ _
    linarith
  · intro k hk hkP
    by_contra hlt
    push_neg at hlt
    have hk1 : k + 1 ≤ (T + P - 1) / P := by omega
    have hmul : P * (k + 1) ≤ P * ((T + P - 1) / P) :=
      mul_le_mul_of_nonneg_left hk1 (le_of_lt hP)
    have hco : P * k = k * P := mul_comm _ _
    linarith

/-- C9: with a sane configuration (`1 ≤ defaultPageSize ≤ maxPageSize`),
List normalizes `page ≤ 0, pageSize ≤ 0` to `page = 1, pageSize =
defaultPageSize`; clamps any `pageSize` above the maximum down to the
maximum; and returns `totalPages` equal to `ceil(total / pageSize)` computed
with the normalized page size. -/
theorem getTodos_pagination_normalization (cfg : PaginationConfig) (db : DB)
    (userID : Nat) (page pageSize : Int)
    (hd : 1 ≤ cfg.defaultPageSize) (hdm : cfg.defaultPageSize ≤ cfg.maxPageSize) :
    ((page ≤ 0 ∧ pageSize ≤ 0) →
      (getTodosService cfg db userID page pageSize).page = 1 ∧
      (getTodosService cfg db userID page pageSize).pageSize = cfg.defaultPageSize) ∧
    (cfg.maxPageSize < pageSize →
      (getTodosService cfg db userID page pageSize).pageSize = cfg.maxPageSize) ∧
    isLeastPageCover (getTodosService cfg db userID page pageSize).total
      (getTodosService cfg db userID page pageSize).pageSize
      (getTodosService cfg db userID page pageSize).totalPages := by
  have htotal : ∀ p ps : Int, 0 ≤ ((repoGetTodos db userID p ps).2 : Int) := by
    intro p ps
    exact Int.ofNat_nonneg _
  refine ⟨?_, ?_, ?_⟩
  · rintro ⟨hp, hps⟩
    constructor
    · simp only [getTodosService]
      omega
    · simp only [getTodosService]
      rw [if_pos (by omega : pageSize < 1)]
      exact min_eq_left hdm
  · intro hmax
    have hnlt : ¬ pageSize < 1 := by omega
    simp only [getTodosService]
    rw [if_neg hnlt]
    exact min_eq_right (le_of_lt hmax)
  · have hP : 1 ≤ min (if pageSize < 1 then cfg.defaultPageSize else pageSize)
        cfg.maxPageSize := by
      by_cases hlt : pageSize < 1
      · rw [if_pos hlt, min_eq_left hdm]
        exact hd
      · rw [if_neg hlt]
        exact le_min (by omega) (by omega)
    simp only [getTodosService]
    exact tdiv_ceil_least _ _ (htotal _ _) (by omega)

/-- Witness for C9 at the spec's own example `List(userID, page=-5,
pageSize=0)` with the production configuration (default 10, max 100). -/
theorem getTodos_pagination_normalization_witness :
    ((1 : Int) ≤ 10 ∧ (10 : Int) ≤ 100) ∧
    ((((-5 : Int) ≤ 0 ∧ (0 : Int) ≤ 0) →
      (getTodosService ⟨10, 100⟩ listDB 1 (-5) 0).page = 1 ∧
      (getTodosService ⟨10, 100⟩ listDB 1 (-5) 0).pageSize = 10) ∧
    ((100 : Int) < 0 →
      (getTodosService ⟨10, 100⟩ listDB 1 (-5) 0).pageSize = 100) ∧
    isLeastPageCover (getTodosService ⟨10, 100⟩ listDB 1 (-5) 0).total
      (getTodosService ⟨10, 100⟩ listDB 1 (-5) 0).pageSize
      (getTodosService ⟨10, 100⟩ listDB 1 (-5) 0).totalPages) :=
  ⟨⟨by decide, by decide⟩,
   getTodos_pagination_normalization ⟨10, 100⟩ listDB 1 (-5) 0 (by decide)
     (by decide)⟩

end ListClaims

/-- `models.CategoryWithTodosRow`: one flat row of the wide
`GetTodosGroupedByCategory` read (todo columns COALESCEd, `todoID = 0` is
the no-todo sentinel of an empty accessible category). -/
structure CategoryWithTodosRow where
  categoryID : Nat
  categoryName : String
  categoryOwnerID : Nat
  categoryOwnerName : String
  userPermission : String
  todoID : Nat
  todoTitle : String
  todoDescription : String
  todoCompleted : Bool
  todoCreatedBy : Nat
  todoCreatorName : String
  todoCreatedAt : Option String
  todoUpdatedAt : Option String
  deriving DecidableEq

/-- `dto.TodoInCategory`. -/
structure TodoInCategory where
  id : Nat
  title : String
  description : String
  completed : Bool
  createdBy : Nat
  creatorName : String
  createdAt : String
  updatedAt : String
  deriving DecidableEq

/-- `dto.CategoryWithTodos`: one group of the nested response. -/
structure CategoryWithTodos where
  id : Nat
  name : String
  ownerID : Nat
  ownerName : String
  userPermission : String
  todos : List TodoInCategory
  deriving DecidableEq

/-- The todo entry built from a row in `GetTodosGroupedByCategory` (nil
timestamps leave the zero value ""). -/
def rowTodo (row : CategoryWithTodosRow) : TodoInCategory :=
  { id := row.todoID, title := row.todoTitle, description := row.todoDescription,
    completed := row.todoCompleted, createdBy := row.todoCreatedBy,
    creatorName := row.todoCreatorName,
    createdAt := row.todoCreatedAt.getD "", updatedAt := row.todoUpdatedAt.getD "" }

/-- The group entry opened on first sight of a category id, with an empty
todo list. -/
def newGroup (row : CategoryWithTodosRow) : CategoryWithTodos :=
  { id := row.categoryID, name := row.categoryName, ownerID := row.categoryOwnerID,
    ownerName := row.categoryOwnerName, userPermission := row.userPermission,
    todos := [] }

/-- Appending the row's todo to the group of the row's category (the Go code
mutates the pointed-to group through the map; on the order-list view this is
an update of the unique group with that id). -/
def updGroup (row : CategoryWithTodosRow) (g : CategoryWithTodos) :
    CategoryWithTodos :=
  if g.id == row.categoryID then { g with todos := g.todos ++ [rowTodo row] }
  else g

/-- One iteration of the grouping loop in
`TodoServiceImpl.GetTodosGroupedByCategory`: open a new group if the
category id is unseen (appending it to the order list), then append the
row's todo to that category's group when the row carries a real todo
(`todoID > 0`). -/
def addRow (acc : List CategoryWithTodos) (row : CategoryWithTodosRow) :
    List CategoryWithTodos :=
  let acc2 := if acc.any (fun g => g.id == row.categoryID) then acc
              else acc ++ [newGroup row]
  if 0 < row.todoID then acc2.map (updGroup row)
  else acc2

/-- The grouping loop of `GetTodosGroupedByCategory` (the Go map plus
explicit `categoryOrder` list, folded over the rows in their given order). -/
def groupRowsByCategory (rows : List CategoryWithTodosRow) :
    List CategoryWithTodos :=
  rows.foldl addRow []

/-- The distinct category ids of the rows in first-seen order. -/
def seenCats (rows : List CategoryWithTodosRow) : List Nat :=
  rows.foldl (fun acc r => if r.categoryID ∈ acc then acc else acc ++ [r.categoryID]) []

/-- The todo entries of the rows of category `c` carrying a real todo, in
row order. -/
def todosFor (rows : List CategoryWithTodosRow) (c : Nat) : List TodoInCategory :=
  (rows.filter (fun r => r.categoryID == c && decide (0 < r.todoID))).map rowTodo

/-- The fully-built group of category `c`: header fields from the first row
of that category, todos from all its real-todo rows. -/
def groupFor (rows : List CategoryWithTodosRow) (c : Nat) : CategoryWithTodos :=
  match rows.find? (fun r => r.categoryID == c) with
  | some r => { newGroup r with todos := todosFor rows c }
  | none =>
    { id := c, name := "", ownerID := 0, ownerName := "", userPermission := "",
      todos := todosFor rows c }

section GroupedViewClaim

theorem seenCats_foldl_mem (rows : List CategoryWithTodosRow)
    (acc : List Nat) (c : Nat) :
    c ∈ rows.foldl
        (fun acc r => if r.categoryID ∈ acc then acc else acc ++ [r.categoryID])
        acc ↔
      c ∈ acc ∨ ∃ r ∈ rows, r.categoryID = c := by
  induction rows generalizing acc with
  | nil => simp
  | cons r rows ih =>
    simp only [List.foldl_cons]
    rw [ih]
    by_cases h : r.categoryID ∈ acc
    · rw [if_pos h]
      constructor
      · rintro (hc | hr)
        · exact Or.inl hc
        · exact Or.inr (by simpa using Or.inr hr)
      · rintro (hc | hr)
        · exact Or.inl hc
        · rcases hr with ⟨r2, hr2, he2⟩
          rcases List.mem_cons.mp hr2 with rfl | hrs
          · exact Or.inl (he2 ▸ h)
          · exact Or.inr ⟨r2, hrs, he2⟩
    · rw [if_neg h]
      constructor
      · rintro (hc | hr)
        · rcases List.mem_append.mp hc with hc | hc
          · exact Or.inl hc
          · refine Or.inr ⟨r, List.mem_cons_self _ _, ?_⟩
            exact (List.mem_singleton.mp hc).symm
        · rcases hr with ⟨r2, hr2, he2⟩
          exact Or.inr ⟨r2, List.mem_cons_of_mem _ hr2, he2⟩
      · rintro (hc | hr)
        · exact Or.inl (List.mem_append_left _ hc)
        · rcases hr with ⟨r2, hr2, he2⟩
          rcases List.mem_cons.mp hr2 with rfl | hrs
          · exact Or.inl (List.mem_append_right _ (by simpa using he2.symm))
          · exact Or.inr ⟨r2, hrs, he2⟩

theorem mem_seenCats (rows : List CategoryWithTodosRow) (c : Nat) :
    c ∈ seenCats rows ↔ ∃ r ∈ rows, r.categoryID = c := by
  unfold seenCats
  rw [seenCats_foldl_mem]
  simp

theorem seenCats_append (rows : List CategoryWithTodosRow)
    (r : CategoryWithTodosRow) :
    seenCats (rows ++ [r]) =
      if r.categoryID ∈ seenCats rows then seenCats rows
      else seenCats rows ++ [r.categoryID] := by
  unfold seenCats
  rw [List.foldl_append]
  rfl

theorem todosFor_append (rows : List CategoryWithTodosRow)
    (r : CategoryWithTodosRow) (c : Nat) :
    todosFor (rows ++ [r]) c =
      todosFor rows c ++
        (if r.categoryID == c && decide (0 < r.todoID) then [rowTodo r] else []) := by
  unfold todosFor
  rw [List.filter_append, List.map_append]
  congr 1
  simp only [List.filter_cons, List.filter_nil]
  split
  · rfl
  · rfl

theorem todosFor_of_not_mem (rows : List CategoryWithTodosRow) (c : Nat)
    (h : ∀ r ∈ rows, r.categoryID ≠ c) : todosFor rows c = [] := by
  unfold todosFor
  have : rows.filter (fun r => r.categoryID == c && decide (0 < r.todoID)) = [] := by
    rw [List.filter_eq_nil_iff]
    intro r hr
    simp [h r hr]
  rw [this, List.map_nil]

theorem groupFor_id (rows : List CategoryWithTodosRow) (c : Nat) :
    (groupFor rows c).id = c := by
  unfold groupFor
  cases h : rows.find? (fun r => r.categoryID == c) with
  | none => rfl
  | some r =>
    have := List.find?_some h
    simp only [beq_iff_eq] at this
    simp [newGroup, this]

theorem groupFor_append_of_mem (rows : List CategoryWithTodosRow)
    (r : CategoryWithTodosRow) (c : Nat) (hc : ∃ r2 ∈ rows, r2.categoryID = c) :
    groupFor (rows ++ [r]) c =
      { groupFor rows c with
        todos := (groupFor rows c).todos ++
          (if r.categoryID == c && decide (0 < r.todoID) then [rowTodo r] else []) } := by
  have hfind : (rows.find? (fun r2 => r2.categoryID == c)).isSome = true := by
    rw [List.find?_isSome]
    rcases hc with ⟨r2, hr2, he2⟩
    exact ⟨r2, hr2, by simpa using he2⟩
  rcases Option.isSome_iff_exists.mp hfind with ⟨r0, hr0⟩
  unfold groupFor
  rw [List.find?_append, hr0]
  simp only [Option.or_some, hr0]
  rw [todosFor_append]

theorem groupFor_append_of_not_mem (rows : List CategoryWithTodosRow)
    (r : CategoryWithTodosRow) (hc : ∀ r2 ∈ rows, r2.categoryID ≠ r.categoryID) :
    groupFor (rows ++ [r]) r.categoryID =
      { newGroup r with
        todos := if decide (0 < r.todoID) then [rowTodo r] else [] } := by
  have hnone : rows.find? (fun r2 => r2.categoryID == r.categoryID) = none := by
    rw [List.find?_eq_none]
    intro r2 hr2
    simp [hc r2 hr2]
  unfold groupFor
  rw [List.find?_append, hnone]
  simp only [Option.none_or]
  have hfr : List.find? (fun r2 => r2.categoryID == r.categoryID) [r] = some r := by
    simp [List.find?]
  rw [hfr]
  rw [todosFor_append, todosFor_of_not_mem rows r.categoryID hc]
  simp

theorem addRow_seen_pos (acc : List CategoryWithTodos) (row : CategoryWithTodosRow)
    (hany : acc.any (fun g => g.id == row.categoryID) = true)
    (hpos : 0 < row.todoID) :
    addRow acc row = acc.map (updGroup row) := by
  unfold addRow
  simp [hany, hpos]

theorem addRow_seen_neg (acc : List CategoryWithTodos) (row : CategoryWithTodosRow)
    (hany : acc.any (fun g => g.id == row.categoryID) = true)
    (hpos : ¬ 0 < row.todoID) :
    addRow acc row = acc := by
  unfold addRow
  simp [hany, hpos]

theorem addRow_new_pos (acc : List CategoryWithTodos) (row : CategoryWithTodosRow)
    (hany : acc.any (fun g => g.id == row.categoryID) = false)
    (hpos : 0 < row.todoID) :
    addRow acc row = (acc ++ [newGroup row]).map (updGroup row) := by
  unfold addRow
  simp [hany, hpos]

theorem addRow_new_neg (acc : List CategoryWithTodos) (row : CategoryWithTodosRow)
    (hany : acc.any (fun g => g.id == row.categoryID) = false)
    (hpos : ¬ 0 < row.todoID) :
    addRow acc row = acc ++ [newGroup row] := by
  unfold addRow
  simp [hany, hpos]

theorem updGroup_of_ne (row : CategoryWithTodosRow) (g : CategoryWithTodos)
    (h : g.id ≠ row.categoryID) : updGroup row g = g := by
  unfold updGroup
  rw [if_neg (by simp [h])]

theorem updGroup_of_eq (row : CategoryWithTodosRow) (g : CategoryWithTodos)
    (h : g.id = row.categoryID) :
    updGroup row g = { g with todos := g.todos ++ [rowTodo row] } := by
  unfold updGroup
  rw [if_pos (by simp [h])]

/-- C8: the grouped-view builder is exactly: one group per distinct
category id in first-seen row order (no re-sorting), each group's header
taken from the first row of that category, and each group's todo list being
the row-ordered todos of the rows of that category whose todo id is
positive — so a zero-sentinel row contributes a group with no todo entry,
and an accessible category with no tasks yields `todos = []`. -/
theorem groupRowsByCategory_characterization (rows : List CategoryWithTodosRow) :
    groupRowsByCategory rows = (seenCats rows).map (groupFor rows) := by
  induction rows using List.reverseRecOn with
  | nil => rfl
  | append_singleton rs r ih =>
    have hstep : groupRowsByCategory (rs ++ [r]) = addRow (groupRowsByCategory rs) r := by
      unfold groupRowsByCategory
      rw [List.foldl_append]
      rfl
    rw [hstep, ih, seenCats_append]
    by_cases hmem : r.categoryID ∈ seenCats rs
    · rw [if_pos hmem]
      have hany : ((seenCats rs).map (groupFor rs)).any
          (fun g => g.id == r.categoryID) = true := by
        rw [List.any_eq_true]
        exact ⟨groupFor rs r.categoryID, List.mem_map_of_mem _ hmem,
               by simp [groupFor_id]⟩
      by_cases hpos : 0 < r.todoID
      · rw [addRow_seen_pos _ _ hany hpos, List.map_map]
        apply List.map_congr_left
        intro c hc
        have hex : ∃ r2 ∈ rs, r2.categoryID = c := (mem_seenCats rs c).mp hc
        simp only [Function.comp_apply]
        rw [groupFor_append_of_mem rs r c hex]
        by_cases hceq : c = r.categoryID
        · rw [updGroup_of_eq r _ (by rw [groupFor_id, hceq])]
          have hc2 : (r.categoryID == c && decide (0 < r.todoID)) = true := by
            simp [hceq.symm, hpos]
          rw [if_pos hc2]
        · have hne2 : ¬ r.categoryID = c := fun h => hceq h.symm
          rw [updGroup_of_ne r _ (by rw [groupFor_id]; exact hceq)]
          have hc2 : (r.categoryID == c && decide (0 < r.todoID)) = false := by
            simp [hne2]
          rw [if_neg (by rw [hc2]; exact Bool.false_ne_true), List.append_nil]
      · rw [addRow_seen_neg _ _ hany hpos]
        apply List.map_congr_left
        intro c hc
        have hex : ∃ r2 ∈ rs, r2.categoryID = c := (mem_seenCats rs c).mp hc
        rw [groupFor_append_of_mem rs r c hex]
        have hc2 : (r.categoryID == c && decide (0 < r.todoID)) = false := by
          simp [hpos]
        rw [if_neg (by rw [hc2]; exact Bool.false_ne_true), List.append_nil]
    · rw [if_neg hmem]
      have hnotin : ∀ r2 ∈ rs, r2.categoryID ≠ r.categoryID := by
        intro r2 h2 heq
        exact hmem ((mem_seenCats rs r.categoryID).mpr ⟨r2, h2, heq⟩)
      have hany : ((seenCats rs).map (groupFor rs)).any
          (fun g => g.id == r.categoryID) = false := by
        rw [Bool.eq_false_iff]
        intro habs
        rw [List.any_eq_true] at habs
        rcases habs with ⟨g, hg, hid⟩
        rcases List.mem_map.mp hg with ⟨c, hc, rfl⟩
        rw [groupFor_id] at hid
        simp only [beq_iff_eq] at hid
        exact hmem (hid ▸ hc)
      have hrsmap : ∀ c ∈ seenCats rs,
          groupFor (rs ++ [r]) c = groupFor rs c := by
        intro c hc
        have hex : ∃ r2 ∈ rs, r2.categoryID = c := (mem_seenCats rs c).mp hc
        have hne2 : r.categoryID ≠ c := by
          rcases hex with ⟨r2, hr2, he2⟩
          intro heq
          exact hnotin r2 hr2 (by rw [he2, heq])
        rw [groupFor_append_of_mem rs r c hex]
        have hc2 : (r.categoryID == c && decide (0 < r.todoID)) = false := by
          simp [hne2]
        rw [if_neg (by rw [hc2]; exact Bool.false_ne_true), List.append_nil]
      by_cases hpos : 0 < r.todoID
      · rw [addRow_new_pos _ _ hany hpos]
        rw [List.map_append, List.map_append, List.map_map]
        congr 1
        · apply List.map_congr_left
          intro c hc
          rw [hrsmap c hc]
          simp only [Function.comp_apply]
          have hcne : c ≠ r.categoryID := by
            intro heq
            exact hmem (heq ▸ hc)
          rw [updGroup_of_ne r _ (by rw [groupFor_id]; exact hcne)]
        · rw [List.map_singleton, List.map_singleton]
          rw [groupFor_append_of_not_mem rs r hnotin]
          rw [updGroup_of_eq r _ rfl]
          simp [newGroup, hpos]
      · rw [addRow_new_neg _ _ hany hpos]
        rw [List.map_append, List.map_singleton]
        congr 1
        · exact (List.map_congr_left (fun c hc => (hrsmap c hc).symm))
        · rw [groupFor_append_of_not_mem rs r hnotin]
          simp [newGroup, hpos]

end GroupedViewClaim

end TodoGin
